import Mathlib

/-!
Verification of the ERASE repository (Explicit Retention And Selective Erasure):
a dual-scored memory system.  The Lean definitions below are a shallow embedding
of the Python sources:

  * `erase/schemas.py`  — `MemoryChunk`, `Message`, `ERASEState`
  * `erase/config.py`   — the `default` / `strict` / `lenient` profiles
  * `erase/erase.py`    — the two-node workflow (`chunk_and_score`,
                          `apply_threshold`) and `invoke` / `score_all`
  * `erase/memory.py`   — `ConversationMemory.add` / `retrieve` / `get_context`

Python floats are modelled by `ℚ` (all the code does with scores is compare
them, and every literal in the repository is a small decimal); `datetime`
timestamps are modelled by an abstract `Nat` tick together with an abstract
rendering function, because no claim depends on the concrete format.  The
language-model call (`ChatOpenAI ... with_structured_output`) is the external
Scoring Capability of the spec: it is modelled as an oracle parameter
`scorer : String → Option String → List MemoryChunk` mapping the prompt inputs
(`input_text`, `query`) to the structured list of scored chunks, and the
`uuid.uuid4()` draw for a missing chunk id is modelled as a supply
`idSupply : Nat → String`.
-/

/-- Embedding of `erase/schemas.py` `MemoryChunk`: a scored memory unit.  The pydantic
bounds `ge=0.0, le=1.0` on the two scores are validation constraints on
construction; they appear as hypotheses where a claim needs them. -/
structure MemoryChunk where
  id : String
  content : String
  retention_score : ℚ
  erasure_score : ℚ
  category : Option String := none
deriving Repr, DecidableEq

/-- Embedding of `config.threshold` in `erase/config.py`: the two thresholds. -/
structure Threshold where
  retention : ℚ
  erasure : ℚ
deriving Repr, DecidableEq

/-- The configuration surface consumed by `ERASE`: a model identifier and the
two thresholds. -/
structure Config where
  model : String
  threshold : Threshold
deriving Repr, DecidableEq

/-- The rational 0.5, given in normalized form so that the kernel can compute
with it (a `1/2` literal goes through `Rat.normalize`, whose `Nat.gcd` the
kernel does not reduce). -/
def q05 : ℚ := ⟨1, 2, by norm_num, by norm_num⟩

/-- The rational 0.7 in normalized form. -/
def q07 : ℚ := ⟨7, 10, by norm_num, by norm_num⟩

/-- The rational 0.3 in normalized form. -/
def q03 : ℚ := ⟨3, 10, by norm_num, by norm_num⟩

/-- The rational 0.9 in normalized form. -/
def q09 : ℚ := ⟨9, 10, by norm_num, by norm_num⟩

/-- The rational 0.1 in normalized form. -/
def q01 : ℚ := ⟨1, 10, by norm_num, by norm_num⟩

theorem q_values :
    q05 = 0.5 ∧ q07 = 0.7 ∧ q03 = 0.3 ∧ q09 = 0.9 ∧ q01 = 0.1 := by
  refine ⟨?_, ?_, ?_, ?_, ?_⟩
  · rw [show q05 = ((1 : ℤ) : ℚ) / ((2 : ℕ) : ℚ) from (Rat.num_div_den q05).symm]
    norm_num
  · rw [show q07 = ((7 : ℤ) : ℚ) / ((10 : ℕ) : ℚ) from (Rat.num_div_den q07).symm]
    norm_num
  · rw [show q03 = ((3 : ℤ) : ℚ) / ((10 : ℕ) : ℚ) from (Rat.num_div_den q03).symm]
    norm_num
  · rw [show q09 = ((9 : ℤ) : ℚ) / ((10 : ℕ) : ℚ) from (Rat.num_div_den q09).symm]
    norm_num
  · rw [show q01 = ((1 : ℤ) : ℚ) / ((10 : ℕ) : ℚ) from (Rat.num_div_den q01).symm]
    norm_num

/-- Embedding of `erase/config.py` `default`: model `gpt-4o-mini`, retention 0.5,
erasure 0.5. -/
def default_profile : Config :=
  ⟨"gpt-4o-mini", ⟨q05, q05⟩⟩

/-- Embedding of `erase/config.py` `strict`: overrides the thresholds of a configuration
with retention 0.7, erasure 0.5. -/
def strict_profile (c : Config) : Config :=
  ⟨c.model, ⟨q07, q05⟩⟩

/-- Embedding of `erase/config.py` `lenient`: overrides the thresholds of a configuration
with retention 0.3, erasure 0.9. -/
def lenient_profile (c : Config) : Config :=
  ⟨c.model, ⟨q03, q09⟩⟩

/-- Embedding of `erase/schemas.py` `ERASEState`: the transient workflow state. -/
structure ERASEState where
  input_text : String
  query : Option String
  chunks : List MemoryChunk
  committed_memory : List MemoryChunk
  iteration : Nat
deriving Repr, DecidableEq

/-- The external Scoring Capability: given the input text and the optional
query it returns the structured list of scored chunks
(`structured_llm.invoke(prompt).chunks` in `erase/erase.py`). -/
def Scorer : Type := String → Option String → List MemoryChunk

/-- The id loop in `ERASE.chunk_and_score`:
`if not chunk.id: chunk.id = str(uuid.uuid4())[:8]`.  A Python string is falsy
exactly when it is empty; the fresh uuid draw for the chunk at position `i` is
modelled by `idSupply i`. -/
def assignIds (idSupply : Nat → String) (chunks : List MemoryChunk) : List MemoryChunk :=
  chunks.mapIdx fun i c => if c.id = "" then { c with id := idSupply i } else c

/-- Embedding of `ERASE.chunk_and_score` as a state transformer: call the Scoring
Capability on (`input_text`, `query`), assign ids to unidentified chunks, and
merge the `{'chunks': ...}` update into the state. -/
def chunk_and_score (scorer : Scorer) (idSupply : Nat → String)
    (s : ERASEState) : ERASEState :=
  { s with chunks := assignIds idSupply (scorer s.input_text s.query) }

/-- The accumulation loop of `ERASE.apply_threshold`:
`keep = (chunk.retention_score >= retention_threshold and
chunk.erasure_score < erasure_threshold)`, appending kept chunks in order. -/
def thresholdLoop (rt et : ℚ) : List MemoryChunk → List MemoryChunk
  | [] => []
  | c :: cs =>
    if c.retention_score ≥ rt ∧ c.erasure_score < et then
      c :: thresholdLoop rt et cs
    else
      thresholdLoop rt et cs

/-- Embedding of `ERASE.apply_threshold` as a state transformer: filter `state['chunks']`
and merge `{'committed_memory': committed, 'iteration': iteration+1}`. -/
def apply_threshold (cfg : Config) (s : ERASEState) : ERASEState :=
  { s with
      committed_memory :=
        thresholdLoop cfg.threshold.retention cfg.threshold.erasure s.chunks,
      iteration := s.iteration + 1 }

/-- The initial state built by `ERASE.invoke` / `ERASE.score_all`. -/
def initState (text : String) (query : Option String) : ERASEState :=
  ⟨text, query, [], [], 0⟩

/-- The compiled graph: `START → chunk_and_score → apply_threshold → END`,
each node's returned update merged into the running state. -/
def runGraph (cfg : Config) (scorer : Scorer) (idSupply : Nat → String)
    (s : ERASEState) : ERASEState :=
  apply_threshold cfg (chunk_and_score scorer idSupply s)

namespace ERASE

/-- Embedding of `ERASE.invoke`: run the graph on a fresh state and return
`result['committed_memory']`. -/
def invoke (cfg : Config) (scorer : Scorer) (idSupply : Nat → String)
    (text : String) (query : Option String) : List MemoryChunk :=
  (runGraph cfg scorer idSupply (initState text query)).committed_memory

/-- Embedding of `ERASE.score_all`: run the same graph and return `result['chunks']`. -/
def score_all (cfg : Config) (scorer : Scorer) (idSupply : Nat → String)
    (text : String) (query : Option String) : List MemoryChunk :=
  (runGraph cfg scorer idSupply (initState text query)).chunks

/-- Version of `ERASE.invoke` instrumented with the number of Scoring Capability calls it
performs: `chunk_and_score` executes `structured_llm.invoke(prompt)` exactly
once, and no other node contacts the model. -/
def invoke_counted (cfg : Config) (scorer : Scorer) (idSupply : Nat → String)
    (text : String) (query : Option String) : List MemoryChunk × Nat :=
  (invoke cfg scorer idSupply text query, 1)

end ERASE

/-- The keep decision of `ERASE.apply_threshold` as a boolean predicate. -/
def keepChunk (rt et : ℚ) (c : MemoryChunk) : Bool :=
  decide (c.retention_score ≥ rt) && decide (c.erasure_score < et)

theorem thresholdLoop_eq_filter (rt et : ℚ) (l : List MemoryChunk) :
    thresholdLoop rt et l = l.filter (keepChunk rt et) := by
  induction l with
  | nil => rfl
  | cons c cs ih =>
    by_cases h : c.retention_score ≥ rt ∧ c.erasure_score < et
    · simp [thresholdLoop, List.filter, keepChunk, h.1, h.2, ih]
    · rw [Decidable.not_and_iff_or_not] at h
      rcases h with h | h
      · simp [thresholdLoop, List.filter, keepChunk, h, ih,
          Decidable.not_and_iff_or_not]
      · simp [thresholdLoop, List.filter, keepChunk, h, ih,
          Decidable.not_and_iff_or_not]

theorem invoke_eq_filter_score_all (cfg : Config) (scorer : Scorer)
    (idSupply : Nat → String) (text : String) (query : Option String) :
    ERASE.invoke cfg scorer idSupply text query =
      (ERASE.score_all cfg scorer idSupply text query).filter
        (keepChunk cfg.threshold.retention cfg.threshold.erasure) := by
  simp [ERASE.invoke, ERASE.score_all, runGraph, apply_threshold,
    thresholdLoop_eq_filter]

/-- C1: the continuous-variant Threshold Policy keeps a unit iff
`retention_score ≥ retention_threshold` and `erasure_score < erasure_threshold`
(a unit exactly at the erasure threshold is excluded), and `invoke`'s committed
result is exactly the surviving units of the scored batch in their original
order — i.e. it is the order-preserving filter of `score_all`'s batch. -/
theorem C1_threshold_policy (cfg : Config) (scorer : Scorer)
    (idSupply : Nat → String) (text : String) (query : Option String) :
    ERASE.invoke cfg scorer idSupply text query =
      (ERASE.score_all cfg scorer idSupply text query).filter
        (keepChunk cfg.threshold.retention cfg.threshold.erasure) ∧
    (∀ c, c ∈ ERASE.invoke cfg scorer idSupply text query ↔
      c ∈ ERASE.score_all cfg scorer idSupply text query ∧
        c.retention_score ≥ cfg.threshold.retention ∧
        c.erasure_score < cfg.threshold.erasure) ∧
    (∀ c, c.erasure_score = cfg.threshold.erasure →
      c ∉ ERASE.invoke cfg scorer idSupply text query) ∧
    (ERASE.invoke cfg scorer idSupply text query).Sublist
      (ERASE.score_all cfg scorer idSupply text query) := by
  refine ⟨invoke_eq_filter_score_all cfg scorer idSupply text query, ?_, ?_, ?_⟩
  · intro c
    rw [invoke_eq_filter_score_all, List.mem_filter]
    simp [keepChunk, and_assoc]
  · intro c hc hmem
    rw [invoke_eq_filter_score_all, List.mem_filter] at hmem
    have h2 := hmem.2
    simp [keepChunk, hc] at h2
  · rw [invoke_eq_filter_score_all]
    exact List.filter_sublist _

def demoChunkA : MemoryChunk := ⟨"c1", "Project B budget is 500K", 1, 0, none⟩

def demoChunkB : MemoryChunk := ⟨"c2", "grab coffee", q01, q05, none⟩

def demoScorer : Scorer := fun _ _ => [demoChunkA, demoChunkB]

def demoSupply : Nat → String := fun n => "gen" ++ toString n

/-- Witness for C1 at a concrete batch: the two membership directions and the
boundary exclusion are discharged on explicit data (`demoChunkB` sits exactly
at the default erasure threshold 0.5 and is excluded). -/
theorem C1_threshold_policy_witness :
    demoChunkB.erasure_score = default_profile.threshold.erasure ∧
    demoChunkB ∉ ERASE.invoke default_profile demoScorer demoSupply "t" none ∧
    demoChunkA ∈ ERASE.invoke default_profile demoScorer demoSupply "t" none := by
  refine ⟨by decide, ?_, ?_⟩
  · exact (C1_threshold_policy default_profile demoScorer demoSupply "t"
      none).2.2.1 demoChunkB (by decide)
  · exact ((C1_threshold_policy default_profile demoScorer demoSupply "t"
      none).2.1 demoChunkA).2 (by decide)

theorem score_all_ignores_thresholds (m : String) (th th' : Threshold)
    (scorer : Scorer) (idSupply : Nat → String) (text : String)
    (query : Option String) :
    ERASE.score_all ⟨m, th⟩ scorer idSupply text query =
      ERASE.score_all ⟨m, th'⟩ scorer idSupply text query := rfl

theorem keepChunk_mono_retention (rt rt' et : ℚ) (h : rt ≤ rt')
    (c : MemoryChunk) (hc : keepChunk rt' et c = true) :
    keepChunk rt et c = true := by
  simp only [keepChunk, Bool.and_eq_true, decide_eq_true_eq] at hc ⊢
  exact ⟨le_trans h hc.1, hc.2⟩

theorem keepChunk_mono_erasure (rt et et' : ℚ) (h : et ≤ et')
    (c : MemoryChunk) (hc : keepChunk rt et c = true) :
    keepChunk rt et' c = true := by
  simp only [keepChunk, Bool.and_eq_true, decide_eq_true_eq] at hc ⊢
  exact ⟨hc.1, lt_of_lt_of_le hc.2 h⟩

/-- C4: for a fixed scored batch, the continuous-variant keep decision is
monotonic in the thresholds: raising `retention_threshold` never increases the
size of the committed set, and raising `erasure_threshold` never decreases
it. -/
theorem C4_threshold_monotonic (m : String) (scorer : Scorer)
    (idSupply : Nat → String) (text : String) (query : Option String)
    (rt rt' et et' : ℚ) :
    (rt ≤ rt' →
      (ERASE.invoke ⟨m, ⟨rt', et⟩⟩ scorer idSupply text query).length ≤
        (ERASE.invoke ⟨m, ⟨rt, et⟩⟩ scorer idSupply text query).length) ∧
    (et ≤ et' →
      (ERASE.invoke ⟨m, ⟨rt, et⟩⟩ scorer idSupply text query).length ≤
        (ERASE.invoke ⟨m, ⟨rt, et'⟩⟩ scorer idSupply text query).length) := by
  constructor
  · intro h
    rw [invoke_eq_filter_score_all, invoke_eq_filter_score_all,
      score_all_ignores_thresholds m ⟨rt', et⟩ ⟨rt, et⟩]
    exact (List.monotone_filter_right _
      (keepChunk_mono_retention rt rt' et h)).length_le
  · intro h
    rw [invoke_eq_filter_score_all, invoke_eq_filter_score_all,
      score_all_ignores_thresholds m ⟨rt, et⟩ ⟨rt, et'⟩]
    exact (List.monotone_filter_right _
      (keepChunk_mono_erasure rt et et' h)).length_le

/-- Witness for C4 at a concrete batch: tightening retention 0.5 → 0.7 and
relaxing erasure 0.5 → 0.9 over the demo batch. -/
theorem C4_threshold_monotonic_witness :
    (ERASE.invoke ⟨"gpt-4o-mini", ⟨q07, q05⟩⟩ demoScorer demoSupply "t"
        none).length ≤
      (ERASE.invoke ⟨"gpt-4o-mini", ⟨q05, q05⟩⟩ demoScorer demoSupply "t"
        none).length ∧
    (ERASE.invoke ⟨"gpt-4o-mini", ⟨q05, q05⟩⟩ demoScorer demoSupply "t"
        none).length ≤
      (ERASE.invoke ⟨"gpt-4o-mini", ⟨q05, q09⟩⟩ demoScorer demoSupply "t"
        none).length :=
  ⟨(C4_threshold_monotonic "gpt-4o-mini" demoScorer demoSupply "t" none
      q05 q07 q05 q09).1 (by decide),
   (C4_threshold_monotonic "gpt-4o-mini" demoScorer demoSupply "t" none
      q05 q07 q05 q09).2 (by decide)⟩

/-- C5: for identical text and query processed over a single scoring batch
(same scorer, same id supply), every id in `invoke`'s committed set also occurs
among the ids returned by `score_all`. -/
theorem C5_score_all_id_superset (cfg : Config) (scorer : Scorer)
    (idSupply : Nat → String) (text : String) (query : Option String) :
    ∀ c ∈ ERASE.invoke cfg scorer idSupply text query,
      c.id ∈ (ERASE.score_all cfg scorer idSupply text query).map
        MemoryChunk.id := by
  intro c hc
  rw [invoke_eq_filter_score_all] at hc
  exact List.mem_map_of_mem MemoryChunk.id (List.mem_of_mem_filter hc)

/-- Witness for C5: the committed demo chunk's id occurs among the scored
batch's ids. -/
theorem C5_score_all_id_superset_witness :
    demoChunkA.id ∈ (ERASE.score_all default_profile demoScorer demoSupply
      "t" none).map MemoryChunk.id :=
  C5_score_all_id_superset default_profile demoScorer demoSupply "t" none
    demoChunkA (by decide)

/-- The spec's configuration-validity condition: both thresholds within
[0,1]. -/
def validThresholds (cfg : Config) : Bool :=
  decide (0 ≤ cfg.threshold.retention) && decide (cfg.threshold.retention ≤ 1) &&
  decide (0 ≤ cfg.threshold.erasure) && decide (cfg.threshold.erasure ≤ 1)

/-- The rational 1.5 in normalized form: a retention threshold outside
[0,1]. -/
def q15 : ℚ := ⟨3, 2, by norm_num, by norm_num⟩

/-- A configuration whose retention threshold 1.5 lies outside [0,1].  Neither
`erase/config.py` nor `ERASE.__init__` checks thresholds, so it is accepted. -/
def invalid_cfg : Config := ⟨"gpt-4o-mini", ⟨q15, q05⟩⟩

/-- Counterexample to C8: under a configuration whose retention threshold is
1.5 (outside [0,1]) nothing fails fast — the pipeline runs, issues its scoring
call, and returns an ordinary (here empty) committed set, contradicting "no
scoring call is ever issued under an invalid threshold configuration". -/
theorem C8_counterexample :
    validThresholds invalid_cfg = false ∧
    (ERASE.invoke_counted invalid_cfg demoScorer demoSupply "t" none).2 = 1 ∧
    ERASE.invoke invalid_cfg demoScorer demoSupply "t" none = [] := by
  refine ⟨by decide, rfl, by decide⟩

/-- C8 (amended): the code performs no threshold validation at all — neither
the configuration profiles nor `ERASE.__init__` inspect threshold ranges, so a
configuration with thresholds outside [0,1] is accepted silently and `invoke`
issues its one scoring call exactly as for a valid configuration; only the
built-in profiles themselves always carry thresholds inside [0,1]. -/
theorem C8_no_fail_fast (cfg : Config) (scorer : Scorer)
    (idSupply : Nat → String) (text : String) (query : Option String) :
    (ERASE.invoke_counted cfg scorer idSupply text query).2 = 1 ∧
    validThresholds default_profile = true ∧
    (∀ c : Config, validThresholds (strict_profile c) = true ∧
      validThresholds (lenient_profile c) = true) := by
  refine ⟨rfl, by decide, fun c => ⟨?_, ?_⟩⟩
  · show (decide ((0 : ℚ) ≤ q07) && decide (q07 ≤ 1) &&
      decide ((0 : ℚ) ≤ q05) && decide (q05 ≤ 1)) = true
    decide
  · show (decide ((0 : ℚ) ≤ q03) && decide (q03 ≤ 1) &&
      decide ((0 : ℚ) ≤ q09) && decide (q09 ≤ 1)) = true
    decide

/-- Embedding of `SentenceScore` in `tests/niah_stress_test.py` and
`tests/niah_english_test.py`: the binary judgment record of the NIAH test
harnesses — boolean `is_relevant` / `should_exclude` flags instead of
continuous scores. -/
structure SentenceScore where
  id : String
  content : String
  is_relevant : Bool
  should_exclude : Bool
deriving Repr, DecidableEq

/-- The per-sentence keep decision of `BatchScorer.filter_batch` in the NIAH
test harnesses: under `use_erasure=True` the binary ERASE rule
`s.is_relevant and not s.should_exclude`, otherwise the single-score baseline
`s.is_relevant`.  The selector is the `use_erasure` constructor flag of
`BatchScorer`, and no thresholds appear anywhere in this path. -/
def batchKeep (use_erasure : Bool) (s : SentenceScore) : Bool :=
  if use_erasure then s.is_relevant && !s.should_exclude else s.is_relevant

/-- The `kept_ids` comprehension of `BatchScorer.filter_batch`:
`[s.id for s in scores if ...]`, branching on `use_erasure`. -/
def kept_ids (use_erasure : Bool) (scores : List SentenceScore) :
    List String :=
  (scores.filter (batchKeep use_erasure)).map SentenceScore.id

/-- Counterexample to C9: the core Threshold Policy offers no
configuration-selectable threshold-free variant.  The configuration surface
consumed by `ERASE` carries only a model name and the two thresholds (no
variant selector), `MemoryChunk` carries no flags, and the keep decision
involves the thresholds under every configuration: over the identical scored
batch, the demo unit is committed under the default thresholds but dropped
once the retention threshold is 1.5, so no configuration makes the core's
decision the threshold-free `is_relevant AND NOT should_exclude` rule. -/
theorem C9_counterexample :
    ERASE.score_all default_profile demoScorer demoSupply "t" none =
      ERASE.score_all invalid_cfg demoScorer demoSupply "t" none ∧
    ERASE.invoke default_profile demoScorer demoSupply "t" none =
      [demoChunkA] ∧
    ERASE.invoke invalid_cfg demoScorer demoSupply "t" none = [] := by
  exact ⟨rfl, by decide, by decide⟩

/-- C9 (amended): the core Threshold Policy implements only the
continuous-score variant — under every configuration `invoke` commits exactly
the chunks passing the continuous threshold comparison, the configuration
carrying no variant selector and `MemoryChunk` no flags.  The binary keep
rule `is_relevant AND NOT should_exclude` exists in the repository only in
the NIAH test harnesses' `BatchScorer.filter_batch`, where the boolean
`use_erasure` constructor flag selects it against a relevance-only baseline
and no thresholds are involved. -/
theorem C9_core_continuous_only (cfg : Config) (scorer : Scorer)
    (idSupply : Nat → String) (text : String) (query : Option String)
    (scores : List SentenceScore) :
    ERASE.invoke cfg scorer idSupply text query =
      (ERASE.score_all cfg scorer idSupply text query).filter
        (keepChunk cfg.threshold.retention cfg.threshold.erasure) ∧
    (∀ i, i ∈ kept_ids true scores ↔
      ∃ s ∈ scores, s.id = i ∧ s.is_relevant = true ∧
        s.should_exclude = false) ∧
    (∀ i, i ∈ kept_ids false scores ↔
      ∃ s ∈ scores, s.id = i ∧ s.is_relevant = true) := by
  refine ⟨invoke_eq_filter_score_all cfg scorer idSupply text query, ?_, ?_⟩
  · intro i
    simp only [kept_ids, List.mem_map, List.mem_filter, batchKeep, if_true,
      Bool.and_eq_true, Bool.not_eq_true']
    constructor
    · rintro ⟨s, ⟨hs, hrel, hexc⟩, hid⟩
      exact ⟨s, hs, hid, hrel, hexc⟩
    · rintro ⟨s, hs, hid, hrel, hexc⟩
      exact ⟨s, ⟨hs, hrel, hexc⟩, hid⟩
  · intro i
    simp only [kept_ids, List.mem_map, List.mem_filter, batchKeep]
    constructor
    · rintro ⟨s, ⟨hs, hrel⟩, hid⟩
      exact ⟨s, hs, hid, hrel⟩
    · rintro ⟨s, hs, hid, hrel⟩
      exact ⟨s, ⟨hs, hrel⟩, hid⟩

def demoSentA : SentenceScore :=
  ⟨"s1", "Linux was developed by Linus Torvalds in 1991.", true, false⟩

def demoSentB : SentenceScore :=
  ⟨"s2", "Linux is open-source and free to use.", true, true⟩

/-- Witness for C9 (amended) at the harness's own example sentences: the
binary ERASE rule keeps the answering sentence, while the relevance-only
baseline also keeps the sentence the binary rule excludes. -/
theorem C9_core_continuous_only_witness :
    "s1" ∈ kept_ids true [demoSentA, demoSentB] ∧
    "s2" ∈ kept_ids false [demoSentA, demoSentB] :=
  ⟨((C9_core_continuous_only default_profile demoScorer demoSupply "t" none
      [demoSentA, demoSentB]).2.1 "s1").mpr
      ⟨demoSentA, by decide, rfl, rfl, rfl⟩,
   ((C9_core_continuous_only default_profile demoScorer demoSupply "t" none
      [demoSentA, demoSentB]).2.2 "s2").mpr
      ⟨demoSentB, by decide, rfl, rfl⟩⟩

/-- Embedding of `erase/schemas.py` `Message`: one conversation turn.  The `datetime`
timestamp is modelled by an abstract `Nat` tick (no claim depends on the
concrete rendering). -/
structure Message where
  role : String
  content : String
  timestamp : Nat
  retention_score : Option ℚ := none
  erasure_score : Option ℚ := none
deriving Repr, DecidableEq

/-- The pydantic `Literal['user', 'assistant', 'system']` validation on
`Message.role`. -/
def validRole (role : String) : Bool :=
  role = "user" || role = "assistant" || role = "system"

/-- Pydantic construction `Message(role=..., content=..., timestamp=...)`:
role validation failure raises a `ValidationError`, modelled as `none`. -/
def makeMessage (role content : String) (now : Nat) : Option Message :=
  if validRole role then some ⟨role, content, now, none, none⟩ else none

namespace ConversationMemory

/-- Embedding of `ConversationMemory.add`: construct the `Message` (validation happens
here), then append it to the history and return it.  When construction raises,
the exception propagates before the append, so the history is unchanged and no
message is produced: the result pairs the resulting history with the
optionally created message. -/
def add (history : List Message) (role content : String) (now : Nat) :
    List Message × Option Message :=
  match makeMessage role content now with
  | some msg => (history ++ [msg], some msg)
  | none => (history, none)

end ConversationMemory

/-- C10: calling `add` with a role outside {user, assistant, system} fails
`Message` validation and leaves the history log unchanged (no partial append);
with a role in that set, the message is appended and returned. -/
theorem C10_add_role_validation (history : List Message)
    (role content : String) (now : Nat) :
    (¬(role = "user" ∨ role = "assistant" ∨ role = "system") →
      ConversationMemory.add history role content now = (history, none)) ∧
    ((role = "user" ∨ role = "assistant" ∨ role = "system") →
      ConversationMemory.add history role content now =
        (history ++ [⟨role, content, now, none, none⟩],
          some ⟨role, content, now, none, none⟩)) := by
  constructor
  · intro h
    have hv : validRole role = false := by
      simp only [validRole, Bool.or_eq_false_iff, decide_eq_false_iff_not]
      exact ⟨⟨fun h1 => h (Or.inl h1), fun h2 => h (Or.inr (Or.inl h2))⟩,
        fun h3 => h (Or.inr (Or.inr h3))⟩
    simp [ConversationMemory.add, makeMessage, hv]
  · intro h
    have hv : validRole role = true := by
      simp only [validRole, Bool.or_eq_true, decide_eq_true_eq]
      rcases h with h | h | h
      · exact Or.inl (Or.inl h)
      · exact Or.inl (Or.inr h)
      · exact Or.inr h
    simp [ConversationMemory.add, makeMessage, hv]

/-- Witness for C10: the invalid role "moderator" leaves an empty history
unchanged; the valid role "user" appends the created message. -/
theorem C10_add_role_validation_witness :
    ConversationMemory.add [] "moderator" "hi" 0 = ([], none) ∧
    ConversationMemory.add [] "user" "hi" 0 =
      ([⟨"user", "hi", 0, none, none⟩], some ⟨"user", "hi", 0, none, none⟩) :=
  ⟨(C10_add_role_validation [] "moderator" "hi" 0).1 (by decide),
   (C10_add_role_validation [] "user" "hi" 0).2 (Or.inl rfl)⟩

/-- Python `'\n'.join(parts)`: empty for no parts, otherwise the parts
interleaved with single newlines. -/
def joinNL : List String → String
  | [] => ""
  | [s] => s
  | s :: rest => s ++ "\n" ++ joinNL rest

/-- Embedding of `ConversationMemory._history_to_text`: render each message as
`[time] role: content` and join the lines with newlines.  The `strftime`
rendering of the timestamp is abstracted as `renderTime`. -/
def historyToText (renderTime : Nat → String) (history : List Message) : String :=
  joinNL (history.map fun msg =>
    "[" ++ renderTime msg.timestamp ++ "] " ++ msg.role ++ ": " ++ msg.content)

/-- One insertion step of the stable descending sort below: the inserted chunk
passes over exactly the chunks of strictly greater retention score and lands
in front of the first chunk whose score is less than or equal to its own. -/
def insertDesc (c : MemoryChunk) : List MemoryChunk → List MemoryChunk
  | [] => [c]
  | d :: ds =>
    if c.retention_score < d.retention_score then d :: insertDesc c ds
    else c :: d :: ds

/-- Embedding of `sorted(chunks, key=lambda c: c.retention_score, reverse=True)`
in `ConversationMemory.get_context`.  Python's `sorted` is stable, and with
`reverse=True` it produces the unique stable descending arrangement by key: an
earlier chunk precedes any later chunk of equal retention score.  The
insertion sort below realizes exactly that arrangement. -/
def sortByRetentionDesc : List MemoryChunk → List MemoryChunk
  | [] => []
  | c :: cs => insertDesc c (sortByRetentionDesc cs)

/-- The accumulation loop of `ConversationMemory.get_context`:
`if total_chars+len(chunk.content) > max_chars: break` — note `break`, not
`continue`: the first overflowing candidate stops the whole loop — else append
`chunk.content` and add its length to `total_chars`. -/
def contextLoop (maxChars total : Nat) : List MemoryChunk → List String
  | [] => []
  | c :: cs =>
    if total + c.content.length > maxChars then []
    else c.content :: contextLoop maxChars (total + c.content.length) cs

/-- The tail of `ConversationMemory.get_context` as a function of the chunks
returned by `retrieve`: return `""` when there are none, otherwise sort by
retention descending, accumulate greedily, and join with newlines. -/
def assembleContext (chunks : List MemoryChunk) (maxChars : Nat) : String :=
  if chunks = [] then ""
  else joinNL (contextLoop maxChars 0 (sortByRetentionDesc chunks))

namespace ConversationMemory

/-- Embedding of `ConversationMemory.retrieve`: empty history short-circuits to `[]`;
otherwise the rendered history is pushed through `ERASE.invoke` with the
query. -/
def retrieve (cfg : Config) (scorer : Scorer) (idSupply : Nat → String)
    (renderTime : Nat → String) (history : List Message) (query : String) :
    List MemoryChunk :=
  if history = [] then []
  else ERASE.invoke cfg scorer idSupply (historyToText renderTime history)
    (some query)

/-- Version of `ConversationMemory.retrieve` instrumented with the number of Scoring
Capability calls made: the empty-history branch returns before building the
prompt, so no call happens there; the other branch performs the single call of
`ERASE.invoke`. -/
def retrieve_counted (cfg : Config) (scorer : Scorer) (idSupply : Nat → String)
    (renderTime : Nat → String) (history : List Message) (query : String) :
    List MemoryChunk × Nat :=
  if history = [] then ([], 0)
  else ERASE.invoke_counted cfg scorer idSupply
    (historyToText renderTime history) (some query)

/-- Embedding of `ConversationMemory.get_context`: retrieve, then assemble the budgeted
context string. -/
def get_context (cfg : Config) (scorer : Scorer) (idSupply : Nat → String)
    (renderTime : Nat → String) (history : List Message) (query : String)
    (maxChars : Nat) : String :=
  assembleContext (retrieve cfg scorer idSupply renderTime history query)
    maxChars

end ConversationMemory

theorem retrieve_counted_fst (cfg : Config) (scorer : Scorer)
    (idSupply : Nat → String) (renderTime : Nat → String)
    (history : List Message) (query : String) :
    (ConversationMemory.retrieve_counted cfg scorer idSupply renderTime
      history query).1 =
      ConversationMemory.retrieve cfg scorer idSupply renderTime history
        query := by
  by_cases h : history = [] <;>
    simp [ConversationMemory.retrieve_counted, ConversationMemory.retrieve, h,
      ERASE.invoke_counted]

/-- C6: on an empty history, `retrieve` returns the empty list immediately and
performs zero Scoring Capability calls, for every configuration, scorer, id
supply, time rendering and query. -/
theorem C6_empty_history_no_call (cfg : Config) (scorer : Scorer)
    (idSupply : Nat → String) (renderTime : Nat → String) (query : String) :
    ConversationMemory.retrieve_counted cfg scorer idSupply renderTime []
      query = ([], 0) := rfl

/-- Index-tagged copy of `insertDesc`, used to track each chunk's original
retrieval position through the sort; the comparison reads only the chunk. -/
def insertDescI (c : Nat × MemoryChunk) :
    List (Nat × MemoryChunk) → List (Nat × MemoryChunk)
  | [] => [c]
  | d :: ds =>
    if c.2.retention_score < d.2.retention_score then d :: insertDescI c ds
    else c :: d :: ds

/-- Index-tagged copy of `sortByRetentionDesc`. -/
def sortDescI : List (Nat × MemoryChunk) → List (Nat × MemoryChunk)
  | [] => []
  | c :: cs => insertDescI c (sortDescI cs)

/-- Index-tagged copy of `contextLoop`, returning the included units
themselves rather than their contents. -/
def contextLoopI (maxChars total : Nat) :
    List (Nat × MemoryChunk) → List (Nat × MemoryChunk)
  | [] => []
  | c :: cs =>
    if total + c.2.content.length > maxChars then []
    else c :: contextLoopI maxChars (total + c.2.content.length) cs

/-- The units included by `get_context` for a given retrieved chunk list,
tagged with their original retrieval positions. -/
def includedUnits (chunks : List MemoryChunk) (maxChars : Nat) :
    List (Nat × MemoryChunk) :=
  contextLoopI maxChars 0 (sortDescI chunks.enum)

/-- The ranking `get_context` is claimed to realize on position-tagged units:
strictly greater retention score first, ties broken by original retrieval
position. -/
def RankOrder (a b : Nat × MemoryChunk) : Prop :=
  b.2.retention_score < a.2.retention_score ∨
    (a.2.retention_score = b.2.retention_score ∧ a.1 < b.1)

theorem RankOrder.score_le {a b : Nat × MemoryChunk} (h : RankOrder a b) :
    b.2.retention_score ≤ a.2.retention_score := by
  rcases h with h | h
  · exact le_of_lt h
  · exact le_of_eq h.1.symm

theorem insertDescI_perm (c : Nat × MemoryChunk)
    (l : List (Nat × MemoryChunk)) : (insertDescI c l).Perm (c :: l) := by
  induction l with
  | nil => exact List.Perm.refl _
  | cons d ds ih =>
    by_cases h : c.2.retention_score < d.2.retention_score
    · rw [insertDescI, if_pos h]
      exact (ih.cons d).trans (List.Perm.swap c d ds)
    · rw [insertDescI, if_neg h]

theorem sortDescI_perm (l : List (Nat × MemoryChunk)) :
    (sortDescI l).Perm l := by
  induction l with
  | nil => exact List.Perm.refl _
  | cons c cs ih => exact (insertDescI_perm c (sortDescI cs)).trans (ih.cons c)

theorem pairwise_insertDescI (c : Nat × MemoryChunk)
    (l : List (Nat × MemoryChunk)) (hl : l.Pairwise RankOrder)
    (hidx : ∀ x ∈ l, c.1 < x.1) :
    (insertDescI c l).Pairwise RankOrder := by
  induction l with
  | nil => simp [insertDescI]
  | cons d ds ih =>
    rw [List.pairwise_cons] at hl
    obtain ⟨hd, hds⟩ := hl
    by_cases h : c.2.retention_score < d.2.retention_score
    · rw [insertDescI, if_pos h, List.pairwise_cons]
      refine ⟨?_, ih hds fun x hx => hidx x (List.mem_cons_of_mem d hx)⟩
      intro y hy
      rcases List.mem_cons.mp ((insertDescI_perm c ds).mem_iff.mp hy) with
        rfl | hy'
      · exact Or.inl h
      · exact hd y hy'
    · rw [insertDescI, if_neg h, List.pairwise_cons]
      refine ⟨?_, List.pairwise_cons.mpr ⟨hd, hds⟩⟩
      intro y hy
      rcases List.mem_cons.mp hy with rfl | hy'
      · rcases lt_or_eq_of_le (not_lt.mp h) with hlt | heq
        · exact Or.inl hlt
        · exact Or.inr ⟨heq.symm, hidx y (List.mem_cons_self y ds)⟩
      · have h1 : y.2.retention_score ≤ c.2.retention_score :=
          le_trans (hd y hy').score_le (not_lt.mp h)
        rcases lt_or_eq_of_le h1 with hlt | heq
        · exact Or.inl hlt
        · exact Or.inr ⟨heq.symm, hidx y (List.mem_cons_of_mem d hy')⟩

theorem pairwise_sortDescI (l : List (Nat × MemoryChunk))
    (hl : l.Pairwise fun a b => a.1 < b.1) :
    (sortDescI l).Pairwise RankOrder := by
  induction l with
  | nil => simp [sortDescI]
  | cons c cs ih =>
    rw [List.pairwise_cons] at hl
    exact pairwise_insertDescI c (sortDescI cs) (ih hl.2)
      fun x hx => hl.1 x ((sortDescI_perm cs).mem_iff.mp hx)

theorem enumFrom_pairwise_fst {α : Type _} :
    ∀ (l : List α) (n : Nat),
      (List.enumFrom n l).Pairwise fun a b => a.1 < b.1 := by
  intro l
  induction l with
  | nil => intro n; simp
  | cons x xs ih =>
    intro n
    rw [List.enumFrom, List.pairwise_cons]
    refine ⟨?_, ih (n + 1)⟩
    intro y hy
    have := (List.mem_enumFrom hy).1
    omega

theorem contextLoopI_sublist (m : Nat) :
    ∀ (l : List (Nat × MemoryChunk)) (total : Nat),
      (contextLoopI m total l).Sublist l := by
  intro l
  induction l with
  | nil => intro total; simp [contextLoopI]
  | cons c cs ih =>
    intro total
    by_cases h : total + c.2.content.length > m
    · rw [contextLoopI, if_pos h]
      exact List.nil_sublist _
    · rw [contextLoopI, if_neg h]
      exact (ih _).cons₂ c

theorem includedUnits_pairwise (chunks : List MemoryChunk) (m : Nat) :
    (includedUnits chunks m).Pairwise RankOrder :=
  List.Pairwise.sublist (contextLoopI_sublist m (sortDescI chunks.enum) 0)
    (pairwise_sortDescI chunks.enum (enumFrom_pairwise_fst chunks 0))

theorem map_snd_insertDescI (c : Nat × MemoryChunk)
    (l : List (Nat × MemoryChunk)) :
    (insertDescI c l).map Prod.snd = insertDesc c.2 (l.map Prod.snd) := by
  induction l with
  | nil => rfl
  | cons d ds ih =>
    by_cases h : c.2.retention_score < d.2.retention_score
    · simp [insertDescI, insertDesc, h, ih]
    · simp [insertDescI, insertDesc, h]

theorem map_snd_sortDescI (l : List (Nat × MemoryChunk)) :
    (sortDescI l).map Prod.snd = sortByRetentionDesc (l.map Prod.snd) := by
  induction l with
  | nil => rfl
  | cons c cs ih =>
    rw [sortDescI, map_snd_insertDescI, ih, List.map_cons, sortByRetentionDesc]

theorem map_content_contextLoopI (m : Nat) :
    ∀ (l : List (Nat × MemoryChunk)) (total : Nat),
      (contextLoopI m total l).map (fun p => p.2.content) =
        contextLoop m total (l.map Prod.snd) := by
  intro l
  induction l with
  | nil => intro total; rfl
  | cons c cs ih =>
    intro total
    by_cases h : total + c.2.content.length > m
    · rw [contextLoopI, if_pos h, List.map_cons, contextLoop, if_pos h]
      rfl
    · rw [contextLoopI, if_neg h, List.map_cons, List.map_cons, contextLoop,
        if_neg h, ih]

theorem includedUnits_contents (chunks : List MemoryChunk) (m : Nat) :
    (includedUnits chunks m).map (fun p => p.2.content) =
      contextLoop m 0 (sortByRetentionDesc chunks) := by
  rw [includedUnits, map_content_contextLoopI, map_snd_sortDescI,
    List.enum_map_snd]

theorem assembleContext_eq_includedUnits (chunks : List MemoryChunk)
    (m : Nat) :
    assembleContext chunks m =
      joinNL ((includedUnits chunks m).map fun p => p.2.content) := by
  by_cases h : chunks = []
  · subst h; rfl
  · rw [assembleContext, if_neg h, includedUnits_contents]

/-- C7: the contents included by `get_context` appear in order of descending
retention score, and two included units of equal retention score appear in
their original retrieval order (the sort is stable): the assembled string is
the newline-join of the position-tagged included units, whose scores are
non-increasing along the list and whose original positions strictly increase
within every group of equal scores. -/
theorem C7_ranking_stable (chunks : List MemoryChunk) (m : Nat) :
    assembleContext chunks m =
      joinNL ((includedUnits chunks m).map fun p => p.2.content) ∧
    ∀ i j : Fin (includedUnits chunks m).length, i < j →
      ((includedUnits chunks m).get j).2.retention_score ≤
          ((includedUnits chunks m).get i).2.retention_score ∧
        (((includedUnits chunks m).get i).2.retention_score =
            ((includedUnits chunks m).get j).2.retention_score →
          ((includedUnits chunks m).get i).1 <
            ((includedUnits chunks m).get j).1) := by
  refine ⟨assembleContext_eq_includedUnits chunks m, ?_⟩
  intro i j hij
  have hR := List.pairwise_iff_get.mp (includedUnits_pairwise chunks m) i j hij
  refine ⟨hR.score_le, ?_⟩
  intro heq
  rcases hR with h | h
  · exact absurd heq (ne_of_gt h)
  · exact h.2

def cexEq1 : MemoryChunk := ⟨"q1", "a", 1, 0, none⟩

def cexEq2 : MemoryChunk := ⟨"q2", "b", 1, 0, none⟩

/-- Witness for C7 on two equal-score units: the earlier retrieved unit keeps
the earlier position among the included units. -/
theorem C7_ranking_stable_witness :
    ((includedUnits [cexEq1, cexEq2] 10).get ⟨0, by decide⟩).1 <
      ((includedUnits [cexEq1, cexEq2] 10).get ⟨1, by decide⟩).1 :=
  ((C7_ranking_stable [cexEq1, cexEq2] 10).2 ⟨0, by decide⟩ ⟨1, by decide⟩
    (by decide)).2 (by decide)

/-- The `total_chars` accumulator of `get_context`: total content length of
the accumulated parts (separators are not counted by the code). -/
def sumLens (parts : List String) : Nat :=
  (parts.map String.length).sum

theorem contextLoop_budget (m : Nat) :
    ∀ (l : List MemoryChunk) (total : Nat), total ≤ m →
      total + sumLens (contextLoop m total l) ≤ m := by
  intro l
  induction l with
  | nil =>
    intro total h
    simpa [contextLoop, sumLens] using h
  | cons c cs ih =>
    intro total h
    by_cases hb : total + c.content.length > m
    · rw [contextLoop, if_pos hb]
      simpa [sumLens] using h
    · rw [contextLoop, if_neg hb]
      have hrec := ih (total + c.content.length) (not_lt.mp hb)
      simp only [sumLens, List.map_cons, List.sum_cons] at hrec ⊢
      omega

theorem joinNL_length :
    ∀ parts : List String, parts ≠ [] →
      (joinNL parts).length + 1 = sumLens parts + parts.length := by
  intro parts
  induction parts with
  | nil => intro h; exact absurd rfl h
  | cons s rest ih =>
    intro _
    cases rest with
    | nil => simp [joinNL, sumLens]
    | cons t ts =>
      have e : joinNL (s :: t :: ts) = s ++ "\n" ++ joinNL (t :: ts) := rfl
      have h1 : ("\n" : String).length = 1 := rfl
      have h2 := ih (by simp)
      rw [e, String.length_append, String.length_append, h1]
      simp only [sumLens, List.map_cons, List.sum_cons, List.length_cons]
        at h2 ⊢
      omega

theorem contextLoop_zero_all_empty :
    ∀ (l : List MemoryChunk) (total : Nat),
      ∀ p ∈ contextLoop 0 total l, p = "" := by
  intro l
  induction l with
  | nil => intro total p hp; simp [contextLoop] at hp
  | cons c cs ih =>
    intro total p hp
    by_cases hb : total + c.content.length > 0
    · rw [contextLoop, if_pos hb] at hp
      simp at hp
    · rw [contextLoop, if_neg hb] at hp
      have hc : c.content.length = 0 := by omega
      rcases List.mem_cons.mp hp with rfl | hp'
      · exact String.ext (List.length_eq_zero.mp hc)
      · exact ih (total + c.content.length) p hp'

def cexChunkAA : MemoryChunk := ⟨"x1", "aa", 1, 0, none⟩

def cexChunkBB : MemoryChunk := ⟨"x2", "bb", q05, 0, none⟩

def cexChunkE1 : MemoryChunk := ⟨"e1", "", 1, 0, none⟩

def cexChunkE2 : MemoryChunk := ⟨"e2", "", 1, 0, none⟩

/-- Counterexample to C2: the accumulator counts only content characters, not
the newline separators, so two 2-character contents under budget 4 assemble to
the 5-character string "aa\nbb"; and with `max_chars = 0` two empty-content
units assemble to "\n", not to the empty string. -/
theorem C2_counterexample :
    assembleContext [cexChunkAA, cexChunkBB] 4 = "aa\nbb" ∧
    ¬((assembleContext [cexChunkAA, cexChunkBB] 4).length ≤ 4) ∧
    ¬(assembleContext [cexChunkE1, cexChunkE2] 0 = "") := by
  refine ⟨by decide, by decide, by decide⟩

/-- C2 (amended): the sum of the content lengths included by `get_context` is
at most `max_chars`, and the returned string's length is at most `max_chars`
plus the number of separators (one less than the number of included parts) —
the separators are not counted against the budget, so the full length can
exceed `max_chars`; for `max_chars = 0` every included part is the empty
string, so the output contains no content characters (but may consist of
separator newlines). -/
theorem C2_length_budget (chunks : List MemoryChunk) (m : Nat) :
    sumLens (contextLoop m 0 (sortByRetentionDesc chunks)) ≤ m ∧
    (assembleContext chunks m).length ≤
      m + (contextLoop m 0 (sortByRetentionDesc chunks)).length - 1 ∧
    contextLoop 0 0 (sortByRetentionDesc chunks) =
      List.replicate (contextLoop 0 0 (sortByRetentionDesc chunks)).length
        "" := by
  refine ⟨?_, ?_, ?_⟩
  · have hb := contextLoop_budget m (sortByRetentionDesc chunks) 0
      (Nat.zero_le m)
    omega
  · by_cases h : chunks = []
    · subst h
      simp [assembleContext, sortByRetentionDesc, contextLoop]
    · rw [assembleContext, if_neg h]
      by_cases hparts : contextLoop m 0 (sortByRetentionDesc chunks) = []
      · rw [hparts]
        simp [joinNL]
      · have h1 := joinNL_length _ hparts
        have h2 := contextLoop_budget m (sortByRetentionDesc chunks) 0
          (Nat.zero_le m)
        have h3 : 1 ≤ (contextLoop m 0 (sortByRetentionDesc chunks)).length :=
          List.length_pos.mpr hparts
        omega
  · rw [List.eq_replicate_iff]
    exact ⟨rfl, contextLoop_zero_all_empty (sortByRetentionDesc chunks) 0⟩

def cexChunkLong : MemoryChunk := ⟨"L", "0123456789X", q09, 0, none⟩

def cexChunkShort : MemoryChunk := ⟨"S", "hi", q01, 0, none⟩

/-- Counterexample to C3: the loop breaks (rather than skips) at the first
overflowing candidate, so with budget 10 an 11-character top-ranked unit makes
`get_context` return `""` even though the other retrieved unit (2 characters)
would fit. -/
theorem C3_counterexample :
    assembleContext [cexChunkLong, cexChunkShort] 10 = "" ∧
    cexChunkShort ∈ [cexChunkLong, cexChunkShort] ∧
    cexChunkShort.content.length ≤ 10 := by
  refine ⟨by decide, by decide, by decide⟩

/-- C3 (amended): accumulation stops at the first sorted candidate that would
overflow the budget (`break`, not skip).  A first candidate exceeding
`max_chars` is indeed never truncated — it is excluded, but so is everything
after it, and the output is then empty even if later units would fit; when the
first candidate fits, its full content is an unmodified prefix of the
output.  Hence emptiness is decided by the highest-ranked candidate alone, not
by whether any retrieved unit fits. -/
theorem C3_break_semantics (chunks : List MemoryChunk) (m : Nat)
    (c : MemoryChunk) (rest : List MemoryChunk)
    (h : sortByRetentionDesc chunks = c :: rest) :
    (c.content.length > m → assembleContext chunks m = "") ∧
    (c.content.length ≤ m →
      ∃ s, assembleContext chunks m = c.content ++ s) := by
  have hne : chunks ≠ [] := by
    intro hc
    subst hc
    simp [sortByRetentionDesc] at h
  constructor
  · intro hlen
    rw [assembleContext, if_neg hne, h, contextLoop,
      if_pos (show 0 + c.content.length > m by omega)]
    rfl
  · intro hlen
    rw [assembleContext, if_neg hne, h, contextLoop,
      if_neg (show ¬(0 + c.content.length > m) by omega)]
    cases hrest : contextLoop m (0 + c.content.length) rest with
    | nil =>
      refine ⟨"", ?_⟩
      simp [joinNL]
    | cons t ts =>
      refine ⟨"\n" ++ joinNL (t :: ts), ?_⟩
      simp [joinNL, String.append_assoc]

/-- Witness for C3 (amended) at the concrete counterexample batch: the
11-character top-ranked unit overflows budget 10 and the output is empty. -/
theorem C3_break_semantics_witness :
    assembleContext [cexChunkLong, cexChunkShort] 10 = "" :=
  (C3_break_semantics [cexChunkLong, cexChunkShort] 10 cexChunkLong
    [cexChunkShort] (by decide)).1 (by decide)
